import Mathlib

/-!
A verification development for the polyarb correlation engine
(src/src/topic: models.py, graph.py, signals.py, backtest.py, ingestion.py).

Modelling conventions:
* Python floats are modelled as rationals (ℚ): every operation the claims
  touch (+, -, *, /, abs, min, max, comparisons) is exact on the values
  involved, so ℚ is a faithful model of the order/field structure used.
* Python ints are modelled as ℤ (sample counts, minimums).
* Python dicts are modelled as insertion-ordered association lists with
  replace-in-place update semantics (matching CPython dict behaviour).
* Python `None` becomes `Option`.
* Wall-clock timestamp fields (`last_updated`, `generated_at`) are not part
  of any claim and are omitted from the records.
-/

/-- models.py `Outcome`: binary market resolution outcome (`YES = True`,
`NO = False`).  Both enum members are truthy in Python, so `if outcome:`
style checks never distinguish them; only `None` is falsy. -/
inductive Outcome
| YES
| NO
deriving DecidableEq

/-- models.py `ConditionalDelta`: price-movement statistics conditioned on a
leader market's outcome. -/
structure ConditionalDelta where
  condition : Outcome
  avg_delta : ℚ
  median_delta : ℚ
  std_delta : ℚ
  avg_lag_seconds : ℚ
  median_lag_seconds : ℚ
  sample_count : ℤ
deriving DecidableEq

/-- models.py `EventEdge`: directed leader→follower relationship.
(The `last_updated` timestamp field is omitted: no claim mentions it.) -/
structure EventEdge where
  from_market_id : String
  to_market_id : String
  similarity : ℚ
  yes_delta : Option ConditionalDelta
  no_delta : Option ConditionalDelta
  confidence : ℚ
deriving DecidableEq

/-- models.py `EventEdge.get_delta`: `yes_delta if outcome == Outcome.YES
else no_delta`. -/
def EventEdge.get_delta (e : EventEdge) (o : Outcome) : Option ConditionalDelta :=
  match o with
  | Outcome.YES => e.yes_delta
  | Outcome.NO => e.no_delta

/-- One iteration of the loop body in models.py `EventEdge.is_valid`:
a `None` delta is skipped (`continue`); a present delta causes `return
False` when `sample_count < min_samples`, `abs(avg_delta) < min_delta`,
or `avg_lag_seconds < min_lag`. -/
def deltaPasses (min_samples : ℤ) (min_delta min_lag : ℚ) :
    Option ConditionalDelta → Bool
  | none => true
  | some d =>
      !decide (d.sample_count < min_samples) &&
      !decide (|d.avg_delta| < min_delta) &&
      !decide (d.avg_lag_seconds < min_lag)

/-- models.py `EventEdge.is_valid(min_samples, min_delta, min_lag)`:
the loop over `[yes_delta, no_delta]` followed by
`return self.yes_delta is not None or self.no_delta is not None`.
Python's default arguments (1, 0.03, 60) are the constants below. -/
def EventEdge.is_valid (e : EventEdge) (min_samples : ℤ) (min_delta min_lag : ℚ) : Bool :=
  deltaPasses min_samples min_delta min_lag e.yes_delta &&
  deltaPasses min_samples min_delta min_lag e.no_delta &&
  (e.yes_delta.isSome || e.no_delta.isSome)

/-- Default `min_samples=1` of `EventEdge.is_valid` / `EventGraph.get_valid`. -/
def DEFAULT_MIN_SAMPLES : ℤ := 1

/-- Default `min_delta=0.03` of `EventEdge.is_valid` / `EventGraph.get_valid`. -/
def DEFAULT_MIN_DELTA : ℚ := 3 / 100

/-- Default `min_lag=60` of `EventEdge.is_valid` / `EventGraph.get_valid`. -/
def DEFAULT_MIN_LAG : ℚ := 60

/-- client.py `Market`.  `prices` is the raw outcome-price list; the
`yes_price` property is `prices[0] if prices else 0.0` (below).
String fields irrelevant to the claims (`question`, `description`, `slug`,
`outcomes`, `end_date`) are omitted. -/
structure Market where
  id : String
  prices : List ℚ
  volume : ℚ
  liquidity : ℚ
deriving DecidableEq

/-- client.py `Market.yes_price` property: `prices[0] if prices else 0.0`. -/
def Market.yes_price (m : Market) : ℚ :=
  m.prices.headD 0

/-- graph.py `build_historical_edges.get_outcome`:
`Outcome.YES if market.yes_price > 0.5 else Outcome.NO`. -/
def get_outcome (m : Market) : Outcome :=
  if m.yes_price > 1 / 2 then Outcome.YES else Outcome.NO

/-- The outcome computation of ingestion.py
`ResolutionTracker._market_to_resolution`:
`Outcome.YES if market.yes_price > 0.5 else Outcome.NO`.
(The surrounding timestamp parsing does not affect the outcome value.) -/
def marketToResolutionOutcome (m : Market) : Outcome :=
  if m.yes_price > 1 / 2 then Outcome.YES else Outcome.NO

/-- CPython `dict` assignment `m[k] = v` on an insertion-ordered
association list: replace in place when the key exists, append otherwise. -/
def dictSet {α β : Type} [DecidableEq α] (m : List (α × β)) (k : α) (v : β) :
    List (α × β) :=
  match m with
  | [] => [(k, v)]
  | (k1, v1) :: rest =>
      if k1 = k then (k, v) :: rest else (k1, v1) :: dictSet rest k v

/-- CPython `dict.get(k)`: first (only) binding of `k`, else `None`. -/
def dictGet {α β : Type} [DecidableEq α] (m : List (α × β)) (k : α) : Option β :=
  match m with
  | [] => none
  | (k1, v1) :: rest => if k1 = k then some v1 else dictGet rest k

/-- CPython `if key not in list: list.append(key)` used by
graph.py `EventGraph._index_edge` on the outgoing/incoming key lists. -/
def appendIfMissing (l : List String) (k : String) : List String :=
  if k ∈ l then l else l ++ [k]

/-- graph.py `EventGraph._key`: the string `f"{from_id}::{to_id}"`. -/
def edgeKey (from_id to_id : String) : String :=
  from_id ++ "::" ++ to_id

/-- graph.py `EventGraph` in-memory state: `_edges` (key → edge),
`_outgoing` (leader id → edge keys), `_incoming` (follower id → edge keys).
File persistence (`_load`/`_save`) is out of scope: it round-trips this
state through JSON and does not affect the claims. -/
structure EventGraph where
  edges : List (String × EventEdge)
  outgoing : List (String × List String)
  incoming : List (String × List String)
deriving DecidableEq

/-- A fresh graph (`EventGraph()` with no persisted file). -/
def EventGraph.empty : EventGraph :=
  { edges := [], outgoing := [], incoming := [] }

/-- graph.py `EventGraph._index_edge`: store the edge under its key
(replacing any existing edge with that key) and record the key in the
outgoing/incoming indices. -/
def EventGraph.index_edge (g : EventGraph) (e : EventEdge) : EventGraph :=
  { edges := dictSet g.edges (edgeKey e.from_market_id e.to_market_id) e,
    outgoing := dictSet g.outgoing e.from_market_id
      (appendIfMissing ((dictGet g.outgoing e.from_market_id).getD [])
        (edgeKey e.from_market_id e.to_market_id)),
    incoming := dictSet g.incoming e.to_market_id
      (appendIfMissing ((dictGet g.incoming e.to_market_id).getD [])
        (edgeKey e.from_market_id e.to_market_id)) }

/-- graph.py `EventGraph.add_edge` (the `_save` call only persists state). -/
def EventGraph.add_edge (g : EventGraph) (e : EventEdge) : EventGraph :=
  g.index_edge e

/-- graph.py `EventGraph.add_edges`: index each edge in order. -/
def EventGraph.add_edges (g : EventGraph) (es : List EventEdge) : EventGraph :=
  es.foldl EventGraph.index_edge g

/-- graph.py `EventGraph.get_edge`. -/
def EventGraph.get_edge (g : EventGraph) (from_id to_id : String) : Option EventEdge :=
  dictGet g.edges (edgeKey from_id to_id)

/-- graph.py `EventGraph.get_outgoing`:
`[self._edges[k] for k in keys if k in self._edges]`. -/
def EventGraph.get_outgoing (g : EventGraph) (leader_id : String) : List EventEdge :=
  ((dictGet g.outgoing leader_id).getD []).filterMap (fun k => dictGet g.edges k)

/-- graph.py `EventGraph.get_valid`: filter the edge values (in insertion
order) by `is_valid`. -/
def EventGraph.get_valid (g : EventGraph) (min_samples : ℤ) (min_delta min_lag : ℚ) :
    List EventEdge :=
  (g.edges.map Prod.snd).filter (fun e => e.is_valid min_samples min_delta min_lag)

/-- Number of stored edges whose dict key equals `k`. -/
def keyCount (g : EventGraph) (k : String) : ℕ :=
  g.edges.countP (fun p => decide (p.1 = k))

/-- The edge-map keys of a well-formed dict are pairwise distinct. -/
def NodupKeys {α β : Type} (m : List (α × β)) : Prop :=
  (m.map Prod.fst).Nodup

/-- models.py `MarketResolution` (the `resolved_at` timestamp is modelled
as a rational epoch value; it does not enter any claim). -/
structure MarketResolution where
  market_id : String
  resolved_at : ℚ
  outcome : Outcome
  question : String
deriving DecidableEq

/-- models.py `Signal`.  The wall-clock `generated_at` field is omitted. -/
structure Signal where
  market_id : String
  direction : String
  expected_move : ℚ
  current_price : ℚ
  expected_price : ℚ
  confidence : ℚ
  source_edge : EventEdge
  leader_market_id : String
  leader_outcome : Option Outcome
deriving DecidableEq

/-- signals.py `SignalEngine.MIN_MISPRICING = 0.03`. -/
def MIN_MISPRICING : ℚ := 3 / 100

/-- signals.py `SignalEngine.MIN_CONFIDENCE = 0.5`. -/
def MIN_CONFIDENCE : ℚ := 1 / 2

/-- signals.py `SignalEngine.MIN_LIQUIDITY = 5000`. -/
def MIN_LIQUIDITY : ℚ := 5000

/-- signals.py `SignalEngine.get_price` against the live-market cache
`_markets` after any refresh: the follower's `yes_price`, or `None` when
the market is not cached. -/
def get_price (markets : List (String × Market)) (market_id : String) : Option ℚ :=
  (dictGet markets market_id).map Market.yes_price

/-- signals.py `SignalEngine.get_liquidity`: the cached market's
liquidity, `0.0` when absent. -/
def get_liquidity (markets : List (String × Market)) (market_id : String) : ℚ :=
  ((dictGet markets market_id).map Market.liquidity).getD 0

/-- signals.py `SignalEngine._generate_signal(resolution, edge)`, with the
live-market cache passed explicitly.  Mirrors the guard order of the
source: confidence, conditional delta, cached price, liquidity,
mispricing threshold. -/
def generateSignal (markets : List (String × Market)) (resolution : MarketResolution)
    (edge : EventEdge) : Option Signal :=
  if edge.confidence < MIN_CONFIDENCE then none
  else
    match edge.get_delta resolution.outcome with
    | none => none
    | some delta =>
        match get_price markets edge.to_market_id with
        | none => none
        | some current_price =>
            if get_liquidity markets edge.to_market_id < MIN_LIQUIDITY then none
            else
              let expected_price := max 0 (min 1 (current_price + delta.avg_delta))
              let mispricing := expected_price - current_price
              if |mispricing| < MIN_MISPRICING then none
              else
                some
                  { market_id := edge.to_market_id,
                    direction := if mispricing > 0 then "BUY" else "SELL",
                    expected_move := mispricing,
                    current_price := current_price,
                    expected_price := expected_price,
                    confidence := edge.confidence * ((delta.sample_count : ℚ) / 10),
                    source_edge := edge,
                    leader_market_id := resolution.market_id,
                    leader_outcome := some resolution.outcome }

/-- backtest.py `Trade`: one simulated leader→follower prediction. -/
structure Trade where
  test_market_id : String
  train_market_id : String
  similarity : ℚ
  train_outcome : Outcome
  predicted_outcome : Outcome
  actual_outcome : Outcome
  profitable : Bool
deriving DecidableEq

/-- One row of the similarity-bucket accuracy table built by backtest.py
`BacktestEngine._compute_results` (the `range` display string is replaced
by the bucket bounds themselves). -/
structure BucketStat where
  low : ℚ
  high : ℚ
  count : ℕ
  correct : ℕ
  hit_rate : ℚ
deriving DecidableEq

/-- models.py `BacktestResult`.  `signals` holds the bounded trade-detail
sample (`trades[:20]`, kept as `Trade` records instead of display dicts);
`bucket_stats` is the attribute `_compute_results` attaches to the result. -/
structure BacktestResult where
  total_signals : ℕ
  profitable_signals : ℕ
  total_pnl : ℚ
  avg_pnl_per_signal : ℚ
  hit_rate : ℚ
  avg_decay_vs_lag : ℚ
  signals : List Trade
  bucket_stats : List BucketStat
deriving DecidableEq

/-- backtest.py `BacktestEngine._empty_result`: the zero-valued result. -/
def emptyResult : BacktestResult :=
  { total_signals := 0, profitable_signals := 0, total_pnl := 0,
    avg_pnl_per_signal := 0, hit_rate := 0, avg_decay_vs_lag := 0,
    signals := [], bucket_stats := [] }

/-- Python `int(x)` on a float: truncation toward zero. -/
def ratTrunc (q : ℚ) : ℤ :=
  if q < 0 then ⌈q⌉ else ⌊q⌋

/-- The `all_market_ids` set built in backtest.py `BacktestEngine.run`:
`for e in edges: add(from); add(to)`.  CPython iterates a set in an order
that is a fixed function of its contents within one process; the model
uses first-insertion order (the shuffle applied afterwards is quantified
over, so no claim depends on this choice). -/
def allMarketIds (edges : List EventEdge) : List String :=
  edges.foldl
    (fun acc e => appendIfMissing (appendIfMissing acc e.from_market_id) e.to_market_id)
    []

/-- backtest.py `BacktestEngine.run` valid-edge query `self.graph.get_valid()`
(default thresholds). -/
def validEdges (g : EventGraph) : List EventEdge :=
  g.get_valid DEFAULT_MIN_SAMPLES DEFAULT_MIN_DELTA DEFAULT_MIN_LAG

/-- backtest.py `markets_with_outcomes`: the edge-touched market ids that
have a known outcome. -/
def eligibleMarkets (g : EventGraph) (outcomes : List (String × Outcome)) : List String :=
  (allMarketIds (validEdges g)).filter (fun m => (dictGet outcomes m).isSome)

/-- backtest.py `split_idx = int(len(markets_with_outcomes) * (1 - test_fraction))`. -/
def splitIdx (g : EventGraph) (outcomes : List (String × Outcome)) (test_fraction : ℚ) : ℕ :=
  (ratTrunc ((eligibleMarkets g outcomes).length * (1 - test_fraction))).toNat

/-- backtest.py train set: the first `split_idx` markets of the seeded
shuffle.  `shuffleWith s l` stands for `random.seed(s); random.shuffle(l)`;
`run` always invokes it with the fixed seed 42. -/
def trainMarkets (shuffleWith : ℕ → List String → List String) (g : EventGraph)
    (outcomes : List (String × Outcome)) (test_fraction : ℚ) : List String :=
  (shuffleWith 42 (eligibleMarkets g outcomes)).take (splitIdx g outcomes test_fraction)

/-- backtest.py test set: the remaining markets of the seeded shuffle. -/
def testMarkets (shuffleWith : ℕ → List String → List String) (g : EventGraph)
    (outcomes : List (String × Outcome)) (test_fraction : ℚ) : List String :=
  (shuffleWith 42 (eligibleMarkets g outcomes)).drop (splitIdx g outcomes test_fraction)

/-- backtest.py `train_edges`: edges whose two endpoints are both in the
train set. -/
def trainEdgesOf (edges : List EventEdge) (train : List String) : List EventEdge :=
  edges.filter (fun e =>
    decide (e.from_market_id ∈ train) && decide (e.to_market_id ∈ train))

/-- backtest.py correlation learning loop: for each train edge whose two
endpoints have known outcomes, record `(out1 == out2, similarity)` under
the key `(from, to)`.  (Both `Outcome` members are truthy in Python, so
`if out1 and out2:` only tests presence.) -/
def corrStep (outcomes : List (String × Outcome))
    (corr : List ((String × String) × (Bool × ℚ))) (e : EventEdge) :
    List ((String × String) × (Bool × ℚ)) :=
  match dictGet outcomes e.from_market_id, dictGet outcomes e.to_market_id with
  | some out1, some out2 =>
      dictSet corr (e.from_market_id, e.to_market_id) (decide (out1 = out2), e.similarity)
  | _, _ => corr

/-- backtest.py correlation learning loop over `train_edges`, starting from
the empty dict. -/
def buildCorrelations (outcomes : List (String × Outcome)) (train_edges : List EventEdge) :
    List ((String × String) × (Bool × ℚ)) :=
  train_edges.foldl (corrStep outcomes) []

/-- backtest.py `test_edges`: edges connecting a train market to a test
market, in either direction. -/
def bridgingEdges (edges : List EventEdge) (train test : List String) : List EventEdge :=
  edges.filter (fun e =>
    (decide (e.from_market_id ∈ train) && decide (e.to_market_id ∈ test)) ||
    (decide (e.from_market_id ∈ test) && decide (e.to_market_id ∈ train)))

/-- backtest.py `BacktestEngine._make_prediction`.  The `correlations`
argument is accepted and ignored exactly as in the source (the prediction
uses only the train endpoint's outcome, never deltas or learned
correlations). -/
def makePrediction (outcomes : List (String × Outcome)) (train test : List String)
    (correlations : List ((String × String) × (Bool × ℚ))) (edge : EventEdge) :
    Option Trade :=
  let ids :=
    if edge.from_market_id ∈ train ∧ edge.to_market_id ∈ test then
      (edge.from_market_id, edge.to_market_id)
    else
      (edge.to_market_id, edge.from_market_id)
  match dictGet outcomes ids.1, dictGet outcomes ids.2 with
  | some train_outcome, some actual_outcome =>
      some
        { test_market_id := ids.2,
          train_market_id := ids.1,
          similarity := edge.similarity,
          train_outcome := train_outcome,
          predicted_outcome := train_outcome,
          actual_outcome := actual_outcome,
          profitable := decide (train_outcome = actual_outcome) }
  | _, _ => none

/-- The similarity buckets of backtest.py `BacktestEngine._compute_results`. -/
def similarityBuckets : List (ℚ × ℚ) :=
  [(95 / 100, 1), (90 / 100, 95 / 100), (85 / 100, 90 / 100),
   (80 / 100, 85 / 100), (75 / 100, 80 / 100)]

/-- Bucket membership test `low <= t.similarity < high`. -/
def inBucket (b : ℚ × ℚ) (t : Trade) : Bool :=
  decide (b.1 ≤ t.similarity) && decide (t.similarity < b.2)

/-- One iteration of the bucket loop in `_compute_results`: `None` when the
bucket is empty (the row is skipped), otherwise the accuracy row. -/
def mkBucketStat (trades : List Trade) (b : ℚ × ℚ) : Option BucketStat :=
  let bucket_trades := trades.filter (inBucket b)
  if bucket_trades.isEmpty then none
  else
    some
      { low := b.1, high := b.2,
        count := bucket_trades.length,
        correct := (bucket_trades.filter (fun t => t.profitable)).length,
        hit_rate := ((bucket_trades.filter (fun t => t.profitable)).length : ℚ) /
          bucket_trades.length }

/-- backtest.py `BacktestEngine._compute_results`. -/
def computeResults (trades : List Trade) : BacktestResult :=
  if trades.isEmpty then emptyResult
  else
    let profitable := trades.filter (fun t => t.profitable)
    let total_pnl : ℤ := (profitable.length : ℤ) - ((trades.length : ℤ) - profitable.length)
    { total_signals := trades.length,
      profitable_signals := profitable.length,
      total_pnl := (total_pnl : ℚ) / 100,
      avg_pnl_per_signal := ((total_pnl : ℚ) / trades.length) / 100,
      hit_rate := (profitable.length : ℚ) / trades.length,
      avg_decay_vs_lag := 0,
      signals := trades.take 20,
      bucket_stats := similarityBuckets.filterMap (mkBucketStat trades) }

/-- backtest.py `BacktestEngine.run(test_fraction)`.
`shuffleWith` models the stdlib `random` shuffle as a function of the seed
(the source calls `random.seed(42)` immediately before `random.shuffle`,
so the seed argument is always 42); `rng_state` models whatever state the
process-global `random` generator carried into the call, which the
re-seeding makes irrelevant.  The three leading guards are the soft
failures of the source; otherwise the pipeline is split → learn train
correlations → predict across bridging edges → aggregate. -/
def BacktestEngine.run (shuffleWith : ℕ → List String → List String) (rng_state : ℕ)
    (g : EventGraph) (outcomes : List (String × Outcome)) (test_fraction : ℚ) :
    BacktestResult :=
  if (validEdges g).isEmpty then emptyResult
  else if outcomes.isEmpty then emptyResult
  else if (eligibleMarkets g outcomes).length < 10 then emptyResult
  else
    let train := trainMarkets shuffleWith g outcomes test_fraction
    let test := testMarkets shuffleWith g outcomes test_fraction
    let train_edges := trainEdgesOf (validEdges g) train
    let correlations := buildCorrelations outcomes train_edges
    let test_edges := bridgingEdges (validEdges g) train test
    computeResults (test_edges.filterMap (makePrediction outcomes train test correlations))

/-- A cached follower market at price 0.50 with liquidity exactly at the
minimum, used to instantiate the signal-engine theorems. -/
def confMarket : Market :=
  { id := "f1", prices := [1 / 2], volume := 0, liquidity := 5000 }

/-- A YES-conditional delta of +0.15 with 20 samples. -/
def confDelta : ConditionalDelta :=
  { condition := Outcome.YES, avg_delta := 15 / 100, median_delta := 15 / 100,
    std_delta := 1 / 10, avg_lag_seconds := 3600, median_lag_seconds := 3600,
    sample_count := 20 }

/-- A YES-conditional delta of +0.01 (below the mispricing threshold). -/
def confDeltaSmall : ConditionalDelta :=
  { condition := Outcome.YES, avg_delta := 1 / 100, median_delta := 1 / 100,
    std_delta := 1 / 10, avg_lag_seconds := 3600, median_lag_seconds := 3600,
    sample_count := 20 }

/-- An edge from leader L1 to follower f1 carrying `confDelta`. -/
def confEdge : EventEdge :=
  { from_market_id := "L1", to_market_id := "f1", similarity := 9 / 10,
    yes_delta := some confDelta, no_delta := none, confidence := 9 / 10 }

/-- The same edge carrying the +0.01 delta instead. -/
def confEdgeSmall : EventEdge :=
  { from_market_id := "L1", to_market_id := "f1", similarity := 9 / 10,
    yes_delta := some confDeltaSmall, no_delta := none, confidence := 9 / 10 }

/-- The resolution event: leader L1 resolves YES. -/
def confResolution : MarketResolution :=
  { market_id := "L1", resolved_at := 0, outcome := Outcome.YES, question := "" }

/-- The live-market cache holding the follower. -/
def confMarkets : List (String × Market) := [("f1", confMarket)]

/-- The signal `_generate_signal` emits for `confEdge`: note its
confidence 9/5 exceeds 1. -/
def confSignal : Signal :=
  { market_id := "f1", direction := "BUY", expected_move := 3 / 20,
    current_price := 1 / 2, expected_price := 13 / 20, confidence := 9 / 5,
    source_edge := confEdge, leader_market_id := "L1",
    leader_outcome := some Outcome.YES }

/-- An edge with both conditional deltas null. -/
def nullEdge : EventEdge :=
  { from_market_id := "a", to_market_id := "b", similarity := 1 / 2,
    yes_delta := none, no_delta := none, confidence := 0 }

/-- A market whose final yes price is exactly 0.5. -/
def halfMarket : Market :=
  { id := "h", prices := [1 / 2], volume := 0, liquidity := 0 }

/-- First edge stored under the key (a, b). -/
def dupEdge1 : EventEdge :=
  { from_market_id := "a", to_market_id := "b", similarity := 1 / 2,
    yes_delta := none, no_delta := none, confidence := 1 / 4 }

/-- Second edge with the same (a, b) key and a different payload. -/
def dupEdge2 : EventEdge :=
  { from_market_id := "a", to_market_id := "b", similarity := 3 / 4,
    yes_delta := none, no_delta := none, confidence := 1 / 2 }

/-- Bridging edge for the leakage witness. -/
def wEdge : EventEdge :=
  { from_market_id := "a", to_market_id := "b", similarity := 1,
    yes_delta := none, no_delta := none, confidence := 1 }

/-- Train set for the leakage witness. -/
def wTrain : List String := ["a"]

/-- Test set for the leakage witness. -/
def wTest : List String := ["b"]

/-- Outcomes for the leakage witness. -/
def wOutcomes : List (String × Outcome) := [("a", Outcome.YES), ("b", Outcome.NO)]

/-- The trade `_make_prediction` produces for `wEdge`. -/
def wTrade : Trade :=
  { test_market_id := "b", train_market_id := "a", similarity := 1,
    train_outcome := Outcome.YES, predicted_outcome := Outcome.YES,
    actual_outcome := Outcome.NO, profitable := false }

/-- YES-conditional delta passing all default validity thresholds. -/
def cexDelta : ConditionalDelta :=
  { condition := Outcome.YES, avg_delta := 3 / 10, median_delta := 3 / 10,
    std_delta := 1 / 10, avg_lag_seconds := 3600, median_lag_seconds := 3600,
    sample_count := 1 }

/-- A valid edge between the given markets. -/
def cexEdge (a b : String) : EventEdge :=
  { from_market_id := a, to_market_id := b, similarity := 9 / 10,
    yes_delta := some cexDelta, no_delta := none, confidence := 9 / 10 }

/-- Ten valid edges: seven lead into the outcome-less market w1, and
three connect u7 to v1, v2, v3. -/
def cexEdges : List EventEdge :=
  [cexEdge "u1" "w1", cexEdge "u2" "w1", cexEdge "u3" "w1", cexEdge "u4" "w1",
   cexEdge "u5" "w1", cexEdge "u6" "w1", cexEdge "u7" "w1",
   cexEdge "u7" "v1", cexEdge "u7" "v2", cexEdge "u7" "v3"]

/-- The counterexample graph, built through the public add API. -/
def cexG : EventGraph :=
  EventGraph.add_edges EventGraph.empty cexEdges

/-- Identity stand-in for the seeded shuffle (`random.shuffle` seeded with
42 is some fixed permutation; the claim must hold for each of them). -/
def cexShuffle : ℕ → List String → List String := fun _ l => l

/-- Outcomes: every u- and v-market resolved YES; w1 has no outcome. -/
def cexOuts : List (String × Outcome) :=
  [("u1", Outcome.YES), ("u2", Outcome.YES), ("u3", Outcome.YES),
   ("u4", Outcome.YES), ("u5", Outcome.YES), ("u6", Outcome.YES),
   ("u7", Outcome.YES), ("v1", Outcome.YES), ("v2", Outcome.YES),
   ("v3", Outcome.YES)]

/-- The trade predicted for the bridging edge u7 → v. -/
def cexTrade (v : String) : Trade :=
  { test_market_id := v, train_market_id := "u7", similarity := 9 / 10,
    train_outcome := Outcome.YES, predicted_outcome := Outcome.YES,
    actual_outcome := Outcome.YES, profitable := true }

/-- A trade whose similarity is exactly 1 (identical questions). -/
def simOneTrade : Trade :=
  { test_market_id := "x", train_market_id := "y", similarity := 1,
    train_outcome := Outcome.YES, predicted_outcome := Outcome.YES,
    actual_outcome := Outcome.YES, profitable := true }

/-- A trade in the 85–90% similarity bucket. -/
def midTrade : Trade :=
  { test_market_id := "x", train_market_id := "y", similarity := 87 / 100,
    train_outcome := Outcome.YES, predicted_outcome := Outcome.YES,
    actual_outcome := Outcome.NO, profitable := false }

theorem mem_keys_dictSet {α β : Type} [DecidableEq α]
    (m : List (α × β)) (k : α) (v : β) (a : α) :
    a ∈ (dictSet m k v).map Prod.fst ↔ a = k ∨ a ∈ m.map Prod.fst := by
  induction m with
  | nil => simp [dictSet]
  | cons p rest ih =>
      obtain ⟨k1, v1⟩ := p
      by_cases hk : k1 = k
      · subst hk
        simp [dictSet]
      · simp only [dictSet, if_neg hk, List.map_cons, List.mem_cons, ih]
        tauto

theorem nodupKeys_dictSet {α β : Type} [DecidableEq α]
    (m : List (α × β)) (k : α) (v : β) (h : NodupKeys m) :
    NodupKeys (dictSet m k v) := by
  induction m with
  | nil => simp [dictSet, NodupKeys]
  | cons p rest ih =>
      obtain ⟨k1, v1⟩ := p
      unfold NodupKeys at h ⊢
      simp only [List.map_cons, List.nodup_cons] at h
      by_cases hk : k1 = k
      · subst hk
        simpa [dictSet] using h
      · simp only [dictSet, if_neg hk, List.map_cons, List.nodup_cons]
        refine ⟨?_, ih h.2⟩
        rw [mem_keys_dictSet]
        push_neg
        exact ⟨hk, h.1⟩

theorem countP_key_eq_zero {α β : Type} [DecidableEq α]
    (m : List (α × β)) (k : α) (h : k ∉ m.map Prod.fst) :
    m.countP (fun p => decide (p.1 = k)) = 0 := by
  rw [List.countP_eq_zero]
  intro p hp
  simp only [decide_eq_true_eq]
  intro hpk
  exact h (List.mem_map.mpr ⟨p, hp, hpk⟩)

theorem countP_key_le_one {α β : Type} [DecidableEq α]
    (m : List (α × β)) (k : α) (h : NodupKeys m) :
    m.countP (fun p => decide (p.1 = k)) ≤ 1 := by
  induction m with
  | nil => simp
  | cons p rest ih =>
      obtain ⟨k1, v1⟩ := p
      unfold NodupKeys at h
      simp only [List.map_cons, List.nodup_cons] at h
      rw [List.countP_cons]
      by_cases hk : k1 = k
      · subst hk
        have h0 := countP_key_eq_zero rest k1 h.1
        simp [h0]
      · have := ih h.2
        simp only [decide_eq_true_eq]
        rw [if_neg hk]
        omega

theorem countP_dictSet_self {α β : Type} [DecidableEq α]
    (m : List (α × β)) (k : α) (v : β) (h : NodupKeys m) :
    (dictSet m k v).countP (fun p => decide (p.1 = k)) = 1 := by
  induction m with
  | nil => simp [dictSet]
  | cons p rest ih =>
      obtain ⟨k1, v1⟩ := p
      unfold NodupKeys at h
      simp only [List.map_cons, List.nodup_cons] at h
      by_cases hk : k1 = k
      · subst hk
        have h0 := countP_key_eq_zero rest k1 h.1
        simp [dictSet, List.countP_cons, h0]
      · have := ih h.2
        simp only [dictSet, if_neg hk, List.countP_cons, decide_eq_true_eq,
          if_neg hk, Nat.add_zero]
        exact this

theorem dictGet_dictSet_self {α β : Type} [DecidableEq α]
    (m : List (α × β)) (k : α) (v : β) :
    dictGet (dictSet m k v) k = some v := by
  induction m with
  | nil => simp [dictSet, dictGet]
  | cons p rest ih =>
      obtain ⟨k1, v1⟩ := p
      by_cases hk : k1 = k
      · subst hk
        simp [dictSet, dictGet]
      · simp [dictSet, if_neg hk, dictGet, ih]

theorem nodupKeys_index_edge (g : EventGraph) (e : EventEdge)
    (h : NodupKeys g.edges) : NodupKeys (g.index_edge e).edges :=
  nodupKeys_dictSet g.edges (edgeKey e.from_market_id e.to_market_id) e h

theorem nodupKeys_add_edges (es : List EventEdge) (g : EventGraph)
    (h : NodupKeys g.edges) : NodupKeys (g.add_edges es).edges := by
  induction es generalizing g with
  | nil => exact h
  | cons e rest ih =>
      exact ih (g.index_edge e) (nodupKeys_index_edge g e h)

theorem nodupKeys_built (es : List EventEdge) :
    NodupKeys (EventGraph.add_edges EventGraph.empty es).edges :=
  nodupKeys_add_edges es EventGraph.empty (by simp [EventGraph.empty, NodupKeys])

/-- C5: Edge validity predicate.  `is_valid` is true iff at least one of
yes_delta/no_delta is non-null and every non-null delta satisfies
`sample_count >= min_samples`, `|avg_delta| >= min_delta` and
`avg_lag_seconds >= min_lag`; in particular an edge with both deltas null
is never valid. -/
theorem is_valid_characterization (e : EventEdge) (min_samples : ℤ) (min_delta min_lag : ℚ) :
    (e.is_valid min_samples min_delta min_lag = true ↔
      ((e.yes_delta.isSome ∨ e.no_delta.isSome) ∧
        ∀ d : ConditionalDelta, (e.yes_delta = some d ∨ e.no_delta = some d) →
          (min_samples ≤ d.sample_count ∧ min_delta ≤ |d.avg_delta| ∧
            min_lag ≤ d.avg_lag_seconds))) ∧
    (e.yes_delta = none → e.no_delta = none →
      e.is_valid min_samples min_delta min_lag = false) := by
  obtain ⟨f, t, s, yd, nd, c⟩ := e
  cases yd <;> cases nd <;>
    simp [EventEdge.is_valid, deltaPasses, not_lt] <;> aesop

/-- C8: Outcome boundary.  Both outcome derivations (graph builder and
resolution tracker) map a final yes price p to YES iff p > 0.5; at
exactly p = 0.5 the outcome is NO. -/
theorem outcome_boundary (m : Market) :
    (get_outcome m = Outcome.YES ↔ 1 / 2 < m.yes_price) ∧
    (marketToResolutionOutcome m = get_outcome m) ∧
    (m.yes_price = 1 / 2 → get_outcome m = Outcome.NO) := by
  refine ⟨?_, rfl, ?_⟩
  · unfold get_outcome
    split <;> simp_all
  · intro h
    simp [get_outcome, h]

/-- C7: Expected-price clamping.  Every signal emitted by
`_generate_signal` has
`expected_price = max(0, min(1, current_price + avg_delta))`, hence the
expected price always lies in [0, 1]. -/
theorem expected_price_clamped (markets : List (String × Market))
    (resolution : MarketResolution) (edge : EventEdge) (s : Signal)
    (h : generateSignal markets resolution edge = some s) :
    ∃ d current_price,
      edge.get_delta resolution.outcome = some d ∧
      get_price markets edge.to_market_id = some current_price ∧
      s.current_price = current_price ∧
      s.expected_price = max 0 (min 1 (current_price + d.avg_delta)) ∧
      0 ≤ s.expected_price ∧ s.expected_price ≤ 1 := by
  by_cases h1 : edge.confidence < MIN_CONFIDENCE
  · simp [generateSignal, h1] at h
  · rcases hd : edge.get_delta resolution.outcome with _ | d
    · simp [generateSignal, h1, hd] at h
    · rcases hp : get_price markets edge.to_market_id with _ | cp
      · simp [generateSignal, h1, hd, hp] at h
      · by_cases hl : get_liquidity markets edge.to_market_id < MIN_LIQUIDITY
        · simp [generateSignal, h1, hd, hp, hl] at h
        · by_cases hm : |max 0 (min 1 (cp + d.avg_delta)) - cp| < MIN_MISPRICING
          · simp [generateSignal, h1, hd, hp, hl, hm] at h
          · simp only [generateSignal, h1, hd, hp, hl, hm, if_neg, if_false] at h
            injection h with h
            subst h
            refine ⟨d, cp, rfl, rfl, rfl, rfl, le_max_left 0 _, ?_⟩
            exact max_le (by norm_num) (le_trans (min_le_left _ _) (by norm_num))

/-- C6: Signal mispricing threshold and direction.  With edge
confidence >= MIN_CONFIDENCE, a cached follower at price 0.50 with
liquidity >= MIN_LIQUIDITY, and a conditional delta for the resolved
outcome: avg_delta = 0.15 emits a BUY signal with expected_price 0.65 and
expected move (mispricing) 0.15, while avg_delta = 0.01 emits nothing
because 0.01 < MIN_MISPRICING = 0.03. -/
theorem signal_threshold (markets : List (String × Market))
    (resolution : MarketResolution) (edge : EventEdge) (m : Market) (d : ConditionalDelta)
    (hconf : MIN_CONFIDENCE ≤ edge.confidence)
    (hd : edge.get_delta resolution.outcome = some d)
    (hm : dictGet markets edge.to_market_id = some m)
    (hprice : m.yes_price = 1 / 2)
    (hliq : MIN_LIQUIDITY ≤ m.liquidity) :
    (d.avg_delta = 15 / 100 →
      generateSignal markets resolution edge =
        some
          { market_id := edge.to_market_id, direction := "BUY",
            expected_move := 15 / 100, current_price := 1 / 2,
            expected_price := 65 / 100,
            confidence := edge.confidence * ((d.sample_count : ℚ) / 10),
            source_edge := edge, leader_market_id := resolution.market_id,
            leader_outcome := some resolution.outcome }) ∧
    (d.avg_delta = 1 / 100 → generateSignal markets resolution edge = none) := by
  have hnc : ¬(edge.confidence < MIN_CONFIDENCE) := not_lt.mpr hconf
  have hgp : get_price markets edge.to_market_id = some (1 / 2) := by
    simp [get_price, hm, hprice]
  have hgl : ¬(get_liquidity markets edge.to_market_id < MIN_LIQUIDITY) := by
    simp only [get_liquidity, hm, Option.map_some, Option.getD_some]
    exact not_lt.mpr hliq
  constructor
  · intro hdelta
    simp only [generateSignal, hnc, hd, hgp, hgl, if_false, hdelta]
    norm_num [MIN_MISPRICING, Signal.mk.injEq]
    intro hc
    rw [show |(3:ℚ) / 20| = 3 / 20 from abs_of_nonneg (by norm_num)] at hc
    norm_num at hc
  · intro hdelta
    simp only [generateSignal, hnc, hd, hgp, hgl, if_false, hdelta]
    norm_num [MIN_MISPRICING]
    rw [show |(1:ℚ) / 100| = 1 / 100 from abs_of_nonneg (by norm_num)]
    norm_num

theorem signal_confidence_formula :
    (∀ (markets : List (String × Market)) (resolution : MarketResolution)
        (edge : EventEdge) (d : ConditionalDelta) (s : Signal),
      generateSignal markets resolution edge = some s →
      edge.get_delta resolution.outcome = some d →
      s.confidence = edge.confidence * ((d.sample_count : ℚ) / 10)) := by
  intro markets resolution edge d s h hd
  by_cases h1 : edge.confidence < MIN_CONFIDENCE
  · simp [generateSignal, h1] at h
  · rcases hp : get_price markets edge.to_market_id with _ | cp
    · simp [generateSignal, h1, hd, hp] at h
    · by_cases hl : get_liquidity markets edge.to_market_id < MIN_LIQUIDITY
      · simp [generateSignal, h1, hd, hp, hl] at h
      · by_cases hmis : |max 0 (min 1 (cp + d.avg_delta)) - cp| < MIN_MISPRICING
        · simp [generateSignal, h1, hd, hp, hl, hmis] at h
        · simp only [generateSignal, h1, hd, hp, hl, hmis, if_neg, if_false] at h
          injection h with h
          subst h
          rfl

theorem generateSignal_conf :
    generateSignal confMarkets confResolution confEdge = some confSignal := by
  have hnc : ¬(confEdge.confidence < MIN_CONFIDENCE) := by
    norm_num [MIN_CONFIDENCE, confEdge]
  have hgp : get_price confMarkets confEdge.to_market_id = some (1 / 2) := by
    simp [get_price, confMarkets, confEdge, dictGet, confMarket, Market.yes_price]
  have hgl : ¬(get_liquidity confMarkets confEdge.to_market_id < MIN_LIQUIDITY) := by
    norm_num [get_liquidity, confMarkets, confEdge, dictGet, confMarket, MIN_LIQUIDITY]
  have hd : confEdge.get_delta confResolution.outcome = some confDelta := rfl
  simp only [generateSignal, hnc, hd, hgp, hgl, if_false]
  norm_num [MIN_MISPRICING, confDelta, Signal.mk.injEq, confSignal, confEdge, confResolution]
  intro hc
  rw [show |(3:ℚ) / 20| = 3 / 20 from abs_of_nonneg (by norm_num)] at hc
  norm_num at hc

/-- C10: Signal confidence formula and unboundedness.  Every emitted
signal has `confidence = edge.confidence * (sample_count / 10)`; with
edge confidence 0.9 and 20 samples the emitted signal's confidence is
9/5 > 1, so signal confidence is not bounded by 1. -/
theorem signal_confidence_unbounded :
    (∀ (markets : List (String × Market)) (resolution : MarketResolution)
        (edge : EventEdge) (d : ConditionalDelta) (s : Signal),
      generateSignal markets resolution edge = some s →
      edge.get_delta resolution.outcome = some d →
      s.confidence = edge.confidence * ((d.sample_count : ℚ) / 10)) ∧
    (generateSignal confMarkets confResolution confEdge = some confSignal ∧
      confSignal.confidence = 9 / 5 ∧ 1 < confSignal.confidence) := by
  exact ⟨signal_confidence_formula, generateSignal_conf, rfl, by norm_num [confSignal]⟩

/-- Witness for C10 at the concrete emitted signal. -/
theorem signal_confidence_unbounded_witness :
    confSignal.confidence = confEdge.confidence * ((confDelta.sample_count : ℚ) / 10) :=
  signal_confidence_unbounded.1 confMarkets confResolution confEdge confDelta confSignal
    signal_confidence_unbounded.2.1 rfl

/-- Witness for C5 at the both-null edge. -/
theorem is_valid_characterization_witness :
    nullEdge.is_valid DEFAULT_MIN_SAMPLES DEFAULT_MIN_DELTA DEFAULT_MIN_LAG = false :=
  (is_valid_characterization nullEdge DEFAULT_MIN_SAMPLES DEFAULT_MIN_DELTA
    DEFAULT_MIN_LAG).2 rfl rfl

/-- Witness for C8 at yes price exactly 0.5. -/
theorem outcome_boundary_witness : get_outcome halfMarket = Outcome.NO :=
  (outcome_boundary halfMarket).2.2 (by simp [halfMarket, Market.yes_price])

/-- Witness for C6 at the concrete market/edge/resolution instances. -/
theorem signal_threshold_witness :
    generateSignal confMarkets confResolution confEdge =
      some
        { market_id := confEdge.to_market_id, direction := "BUY",
          expected_move := 15 / 100, current_price := 1 / 2,
          expected_price := 65 / 100,
          confidence := confEdge.confidence * ((confDelta.sample_count : ℚ) / 10),
          source_edge := confEdge, leader_market_id := confResolution.market_id,
          leader_outcome := some confResolution.outcome } ∧
    generateSignal confMarkets confResolution confEdgeSmall = none := by
  constructor
  · exact (signal_threshold confMarkets confResolution confEdge confMarket confDelta
      (by norm_num [MIN_CONFIDENCE, confEdge]) rfl
      (by simp [confMarkets, confEdge, dictGet])
      (by simp [confMarket, Market.yes_price])
      (by norm_num [MIN_LIQUIDITY, confMarket])).1 rfl
  · exact (signal_threshold confMarkets confResolution confEdgeSmall confMarket confDeltaSmall
      (by norm_num [MIN_CONFIDENCE, confEdgeSmall]) rfl
      (by simp [confMarkets, confEdgeSmall, dictGet])
      (by simp [confMarket, Market.yes_price])
      (by norm_num [MIN_LIQUIDITY, confMarket])).2 rfl

/-- Witness for C7 at the concrete emitted signal `confSignal`. -/
theorem expected_price_clamped_witness :
    0 ≤ confSignal.expected_price ∧ confSignal.expected_price ≤ 1 := by
  obtain ⟨d, cp, -, -, -, -, h0, h1⟩ :=
    expected_price_clamped confMarkets confResolution confEdge confSignal generateSignal_conf
  exact ⟨h0, h1⟩

/-- C4: Edge uniqueness and latest-wins replacement.  Any graph built by
add calls from empty stores at most one edge per key; after adding
[e1, e2] with equal (leader, follower) keys the stored count for that key
is 1 and the stored edge is e2. -/
theorem edge_latest_wins (es : List EventEdge) (k : String) (e1 e2 : EventEdge)
    (hk : edgeKey e1.from_market_id e1.to_market_id =
      edgeKey e2.from_market_id e2.to_market_id) :
    keyCount (EventGraph.add_edges EventGraph.empty es) k ≤ 1 ∧
    keyCount ((EventGraph.add_edges EventGraph.empty es).add_edges [e1, e2])
      (edgeKey e2.from_market_id e2.to_market_id) = 1 ∧
    ((EventGraph.add_edges EventGraph.empty es).add_edges [e1, e2]).get_edge
      e2.from_market_id e2.to_market_id = some e2 := by
  have hg := nodupKeys_built es
  refine ⟨countP_key_le_one _ _ hg, ?_, ?_⟩
  · show ((((EventGraph.add_edges EventGraph.empty es).index_edge e1).index_edge e2).edges).countP
      (fun p => decide (p.1 = edgeKey e2.from_market_id e2.to_market_id)) = 1
    simp only [EventGraph.index_edge]
    rw [hk]
    exact countP_dictSet_self _ _ _ (nodupKeys_dictSet _ _ _ hg)
  · show dictGet ((((EventGraph.add_edges EventGraph.empty es).index_edge e1).index_edge e2).edges)
      (edgeKey e2.from_market_id e2.to_market_id) = some e2
    simp only [EventGraph.index_edge]
    exact dictGet_dictSet_self _ _ _

/-- Witness for C4 with two concrete edges sharing the key (a, b). -/
theorem edge_latest_wins_witness :
    keyCount (EventGraph.add_edges EventGraph.empty []) (edgeKey "a" "b") ≤ 1 ∧
    keyCount ((EventGraph.add_edges EventGraph.empty []).add_edges [dupEdge1, dupEdge2])
      (edgeKey dupEdge2.from_market_id dupEdge2.to_market_id) = 1 ∧
    ((EventGraph.add_edges EventGraph.empty []).add_edges [dupEdge1, dupEdge2]).get_edge
      dupEdge2.from_market_id dupEdge2.to_market_id = some dupEdge2 :=
  edge_latest_wins [] (edgeKey "a" "b") dupEdge1 dupEdge2 rfl

/-- C1: Backtest determinism.  `run` re-seeds the shuffle with the fixed
seed 42, so for any shuffle family and any two ambient RNG states the two
calls of `run(test_fraction=0.3)` on the same graph and outcomes return
identical hit_rate and total_signals (indeed identical results). -/
theorem backtest_deterministic (shuffleWith : ℕ → List String → List String)
    (rng1 rng2 : ℕ) (g : EventGraph) (outcomes : List (String × Outcome)) :
    (BacktestEngine.run shuffleWith rng1 g outcomes (3 / 10)).hit_rate =
      (BacktestEngine.run shuffleWith rng2 g outcomes (3 / 10)).hit_rate ∧
    (BacktestEngine.run shuffleWith rng1 g outcomes (3 / 10)).total_signals =
      (BacktestEngine.run shuffleWith rng2 g outcomes (3 / 10)).total_signals ∧
    BacktestEngine.run shuffleWith rng1 g outcomes (3 / 10) =
      BacktestEngine.run shuffleWith rng2 g outcomes (3 / 10) :=
  ⟨rfl, rfl, rfl⟩

theorem mem_dictSet {α β : Type} [DecidableEq α] (m : List (α × β)) (k : α) (v : β)
    (p : α × β) (h : p ∈ dictSet m k v) : p = (k, v) ∨ p ∈ m := by
  induction m with
  | nil => simpa [dictSet] using h
  | cons q rest ih =>
      obtain ⟨k1, v1⟩ := q
      by_cases hk : k1 = k
      · subst hk
        rcases (by simpa [dictSet] using h : p = (k1, v) ∨ p ∈ rest) with h1 | h1
        · exact Or.inl h1
        · exact Or.inr (List.mem_cons_of_mem _ h1)
      · rcases (by simpa [dictSet, hk] using h : p = (k1, v1) ∨ p ∈ dictSet rest k v) with h1 | h1
        · exact Or.inr (by simp [h1])
        · rcases ih h1 with h2 | h2
          · exact Or.inl h2
          · exact Or.inr (List.mem_cons_of_mem _ h2)

theorem foldl_preserves {σ α : Type} (P : σ → Prop) (f : σ → α → σ) (l : List α)
    (hstep : ∀ s a, a ∈ l → P s → P (f s a)) (init : σ) (hinit : P init) :
    P (l.foldl f init) := by
  induction l generalizing init with
  | nil => exact hinit
  | cons a rest ih =>
      exact ih (fun s b hb => hstep s b (List.mem_cons_of_mem _ hb)) _
        (hstep init a (List.mem_cons_self _ _) hinit)

theorem corrStep_preserves (outcomes : List (String × Outcome)) (train : List String)
    (corr : List ((String × String) × (Bool × ℚ))) (e : EventEdge)
    (he : e.from_market_id ∈ train ∧ e.to_market_id ∈ train)
    (hcorr : ∀ kv ∈ corr, kv.1.1 ∈ train ∧ kv.1.2 ∈ train) :
    ∀ kv ∈ corrStep outcomes corr e, kv.1.1 ∈ train ∧ kv.1.2 ∈ train := by
  intro kv hkv
  unfold corrStep at hkv
  rcases h1 : dictGet outcomes e.from_market_id with _ | o1 <;>
    rcases h2 : dictGet outcomes e.to_market_id with _ | o2 <;>
    rw [h1, h2] at hkv
  · exact hcorr kv hkv
  · exact hcorr kv hkv
  · exact hcorr kv hkv
  · rcases mem_dictSet _ _ _ _ hkv with h3 | h3
    · subst h3
      exact he
    · exact hcorr kv h3

/-- C2: Backtest leakage boundary.  Every entry of the correlations map
learned from `trainEdgesOf edges train` has both endpoints in the train
set; and every trade produced for a bridging edge records as its
prediction exactly the train endpoint's known outcome (the recorded
train market is in the train set, the predicted outcome is looked up at
the train market, and the prediction is unchanged under any correlations
argument and any replacement of the edge's deltas — no test outcome and
no delta value enters the prediction). -/
theorem backtest_leakage_boundary (edges : List EventEdge) (train test : List String)
    (outcomes : List (String × Outcome))
    (correlations : List ((String × String) × (Bool × ℚ))) :
    (∀ kv ∈ buildCorrelations outcomes (trainEdgesOf edges train),
      kv.1.1 ∈ train ∧ kv.1.2 ∈ train) ∧
    (∀ e ∈ bridgingEdges edges train test, ∀ t : Trade,
      makePrediction outcomes train test correlations e = some t →
      t.train_market_id ∈ train ∧
      dictGet outcomes t.train_market_id = some t.predicted_outcome ∧
      t.predicted_outcome = t.train_outcome ∧
      (∀ correlations2, makePrediction outcomes train test correlations2 e =
        makePrediction outcomes train test correlations e) ∧
      (∀ yd nd, makePrediction outcomes train test correlations
        { e with yes_delta := yd, no_delta := nd } =
          makePrediction outcomes train test correlations e)) := by
  constructor
  · unfold buildCorrelations
    refine foldl_preserves
      (fun corr => ∀ kv ∈ corr, kv.1.1 ∈ train ∧ kv.1.2 ∈ train)
      (corrStep outcomes) _ ?_ [] ?_
    swap
    · intro kv hkv
      exact absurd hkv (List.not_mem_nil kv)
    intro corr e he hcorr
    have hmem : e.from_market_id ∈ train ∧ e.to_market_id ∈ train := by
      have := List.mem_filter.mp he
      simpa using this.2
    exact corrStep_preserves outcomes train corr e hmem hcorr
  · intro e he t ht
    have hbridge : (e.from_market_id ∈ train ∧ e.to_market_id ∈ test) ∨
        (e.from_market_id ∈ test ∧ e.to_market_id ∈ train) := by
      have := List.mem_filter.mp he
      simpa using this.2
    by_cases hc : e.from_market_id ∈ train ∧ e.to_market_id ∈ test
    · simp only [makePrediction, if_pos hc] at ht
      rcases h1 : dictGet outcomes e.from_market_id with _ | o1
      · rw [h1] at ht
        simp at ht
      · rw [h1] at ht
        rcases h2 : dictGet outcomes e.to_market_id with _ | o2
        · rw [h2] at ht
          simp at ht
        · rw [h2] at ht
          injection ht with ht
          subst ht
          exact ⟨hc.1, h1, rfl, fun _ => rfl, fun _ _ => rfl⟩
    · have htr : e.to_market_id ∈ train := by tauto
      simp only [makePrediction, if_neg hc] at ht
      rcases h1 : dictGet outcomes e.to_market_id with _ | o1
      · rw [h1] at ht
        simp at ht
      · rw [h1] at ht
        rcases h2 : dictGet outcomes e.from_market_id with _ | o2
        · rw [h2] at ht
          simp at ht
        · rw [h2] at ht
          injection ht with ht
          subst ht
          exact ⟨htr, h1, rfl, fun _ => rfl, fun _ _ => rfl⟩

/-- Witness for C2 at a concrete bridging edge. -/
theorem backtest_leakage_boundary_witness :
    wTrade.train_market_id ∈ wTrain ∧
    dictGet wOutcomes wTrade.train_market_id = some wTrade.predicted_outcome ∧
    wTrade.predicted_outcome = wTrade.train_outcome := by
  obtain ⟨h1, h2, h3, -, -⟩ :=
    (backtest_leakage_boundary [wEdge] wTrain wTest wOutcomes []).2 wEdge
      (by simp [bridgingEdges, wEdge, wTrain, wTest])
      wTrade
      (by simp [makePrediction, dictGet, wEdge, wTrain, wTest, wOutcomes, wTrade])
  exact ⟨h1, h2, h3⟩

theorem cex_valid : validEdges cexG = cexEdges := by
  simp [validEdges, cexG, EventGraph.add_edges, EventGraph.empty,
    EventGraph.index_edge, EventGraph.get_valid, cexEdges, cexEdge, cexDelta,
    edgeKey, dictSet, dictGet, appendIfMissing, List.foldl,
    EventEdge.is_valid, deltaPasses, DEFAULT_MIN_SAMPLES, DEFAULT_MIN_DELTA,
    DEFAULT_MIN_LAG,
    (by rw [show |(3:ℚ) / 10| = 3 / 10 from abs_of_nonneg (by norm_num)]
        norm_num : (3:ℚ) / 100 ≤ |(3:ℚ) / 10|),
    (by norm_num : ¬((3600:ℚ) < 60))]

theorem cex_eligible :
    eligibleMarkets cexG cexOuts =
      ["u1", "u2", "u3", "u4", "u5", "u6", "u7", "v1", "v2", "v3"] := by
  rw [eligibleMarkets, cex_valid]
  simp [allMarketIds, appendIfMissing, cexEdges, cexEdge, cexOuts, dictGet,
    List.foldl]

theorem cex_split : splitIdx cexG cexOuts (3 / 10) = 7 := by
  rw [splitIdx, cex_eligible]
  norm_num [ratTrunc]
  rfl

theorem cex_train :
    trainMarkets cexShuffle cexG cexOuts (3 / 10) =
      ["u1", "u2", "u3", "u4", "u5", "u6", "u7"] := by
  rw [trainMarkets, cex_eligible, cex_split]
  rfl

theorem cex_test :
    testMarkets cexShuffle cexG cexOuts (3 / 10) = ["v1", "v2", "v3"] := by
  rw [testMarkets, cex_eligible, cex_split]
  rfl

theorem cex_train_edges :
    trainEdgesOf (validEdges cexG)
      (trainMarkets cexShuffle cexG cexOuts (3 / 10)) = [] := by
  rw [cex_valid, cex_train]
  simp [trainEdgesOf, cexEdges, cexEdge]

theorem cex_bridging :
    bridgingEdges (validEdges cexG)
      (trainMarkets cexShuffle cexG cexOuts (3 / 10))
      (testMarkets cexShuffle cexG cexOuts (3 / 10)) =
      [cexEdge "u7" "v1", cexEdge "u7" "v2", cexEdge "u7" "v3"] := by
  rw [cex_valid, cex_train, cex_test]
  simp [bridgingEdges, cexEdges, cexEdge]

theorem cex_run :
    BacktestEngine.run cexShuffle 0 cexG cexOuts (3 / 10) =
      computeResults [cexTrade "v1", cexTrade "v2", cexTrade "v3"] := by
  rw [BacktestEngine.run]
  have h1 : (validEdges cexG).isEmpty = false := by rw [cex_valid]; rfl
  have h2 : cexOuts.isEmpty = false := rfl
  have h3 : ¬((eligibleMarkets cexG cexOuts).length < 10) := by
    rw [cex_eligible]
    norm_num
  simp only [h1, h2, h3, Bool.false_eq_true, if_false, if_neg h3]
  rw [cex_bridging, cex_train, cex_test]
  simp [makePrediction, cexEdge, cexOuts, cexTrade, dictGet]

/-- C3 counterexample: a concrete graph of ten valid edges and ten known
outcomes where the train-edge set is empty while three bridging edges
exist; `run(test_fraction=0.3)` returns total_signals = 3, not the
zero-valued result, because `_make_prediction` never consults the learned
correlations. -/
theorem backtest_empty_train_counterexample :
    trainEdgesOf (validEdges cexG)
      (trainMarkets cexShuffle cexG cexOuts (3 / 10)) = [] ∧
    bridgingEdges (validEdges cexG)
      (trainMarkets cexShuffle cexG cexOuts (3 / 10))
      (testMarkets cexShuffle cexG cexOuts (3 / 10)) ≠ [] ∧
    (BacktestEngine.run cexShuffle 0 cexG cexOuts (3 / 10)).total_signals = 3 ∧
    BacktestEngine.run cexShuffle 0 cexG cexOuts (3 / 10) ≠ emptyResult := by
  refine ⟨cex_train_edges, ?_, ?_, ?_⟩
  · rw [cex_bridging]
    simp
  · rw [cex_run]
    rfl
  · rw [cex_run]
    intro h
    have h3 : (computeResults [cexTrade "v1", cexTrade "v2", cexTrade "v3"]).total_signals = 3 := rfl
    rw [h] at h3
    simp [emptyResult] at h3

/-- C3 (amended): if the set of bridging train-to-test edges is empty,
`run` returns the zero-valued BacktestResult (and, being a total
function, does not raise).  Emptiness of the train-edge set alone does
not force a zero result — see the counterexample. -/
theorem backtest_empty_bridging (shuffleWith : ℕ → List String → List String)
    (rng : ℕ) (g : EventGraph) (outcomes : List (String × Outcome)) (tf : ℚ)
    (h : bridgingEdges (validEdges g) (trainMarkets shuffleWith g outcomes tf)
      (testMarkets shuffleWith g outcomes tf) = []) :
    BacktestEngine.run shuffleWith rng g outcomes tf = emptyResult := by
  rw [BacktestEngine.run]
  split_ifs <;> try rfl
  simp only [h, List.filterMap_nil]
  rfl

/-- Witness for the amended C3 on an empty graph. -/
theorem backtest_empty_bridging_witness :
    BacktestEngine.run (fun _ l => l) 0 EventGraph.empty [] (3 / 10) = emptyResult :=
  backtest_empty_bridging (fun _ l => l) 0 EventGraph.empty [] (3 / 10) rfl

theorem sum_map_add {α : Type} (l : List α) (f g : α → ℕ) :
    (l.map (fun x => f x + g x)).sum = (l.map f).sum + (l.map g).sum := by
  induction l with
  | nil => rfl
  | cons a rest ih =>
      simp only [List.map_cons, List.sum_cons, ih]
      omega

theorem sum_map_ite {α : Type} (l : List α) (p : α → Bool) :
    (l.map (fun x => if p x then 1 else 0)).sum = l.countP p := by
  induction l with
  | nil => rfl
  | cons a rest ih =>
      simp only [List.map_cons, List.sum_cons, List.countP_cons, ih]
      omega

theorem bucketStats_count_eq (trades : List Trade) (bs : List (ℚ × ℚ)) :
    ((bs.filterMap (mkBucketStat trades)).map BucketStat.count).sum =
      (bs.map (fun b => trades.countP (inBucket b))).sum := by
  induction bs with
  | nil => rfl
  | cons b rest ih =>
      by_cases hemp : (trades.filter (inBucket b)).isEmpty
      · have h0 : trades.countP (inBucket b) = 0 := by
          rw [List.countP_eq_length_filter]
          simp [List.isEmpty_iff.mp hemp]
        simp [mkBucketStat, hemp, ih, h0]
      · simp [mkBucketStat, hemp, ih, List.countP_eq_length_filter]

theorem sum_countP_le (trades : List Trade) (bs : List (ℚ × ℚ))
    (hone : ∀ t ∈ trades, bs.countP (fun b => inBucket b t) ≤ 1) :
    (bs.map (fun b => trades.countP (inBucket b))).sum ≤ trades.length := by
  induction trades with
  | nil => simp
  | cons t ts ih =>
      simp only [List.countP_cons, List.length_cons]
      rw [sum_map_add, sum_map_ite]
      have h1 := ih (fun x hx => hone x (List.mem_cons_of_mem _ hx))
      have h2 := hone t (List.mem_cons_self _ _)
      omega

/-- C9 (amended): every trade with 0.75 <= similarity < 1 falls in
exactly one similarity bucket; a trade with similarity < 0.75 or
similarity >= 1 falls in none (the top bucket is the half-open interval
[0.95, 1.0), so similarity exactly 1 is counted by no bucket); the
per-bucket counts of `_compute_results` sum to at most the number of
trades. -/
theorem bucket_partition (trades : List Trade) :
    (∀ t : Trade, 75 / 100 ≤ t.similarity → t.similarity < 1 →
      similarityBuckets.countP (fun b => inBucket b t) = 1) ∧
    (∀ t : Trade, t.similarity < 75 / 100 ∨ 1 ≤ t.similarity →
      similarityBuckets.countP (fun b => inBucket b t) = 0) ∧
    ((computeResults trades).bucket_stats.map BucketStat.count).sum ≤ trades.length := by
  have ha : ∀ t : Trade, 75 / 100 ≤ t.similarity → t.similarity < 1 →
      similarityBuckets.countP (fun b => inBucket b t) = 1 := by
    intro t h1 h2
    rcases lt_or_le t.similarity (80 / 100) with r1 | r1
    · simp [similarityBuckets, List.countP_cons, inBucket, r1, h1,
        (by linarith : ¬((95:ℚ) / 100 ≤ t.similarity)),
        (by linarith : ¬((90:ℚ) / 100 ≤ t.similarity)),
        (by linarith : ¬((85:ℚ) / 100 ≤ t.similarity)),
        (by linarith : ¬((80:ℚ) / 100 ≤ t.similarity))]
    · rcases lt_or_le t.similarity (85 / 100) with r2 | r2
      · simp [similarityBuckets, List.countP_cons, inBucket, r1, r2,
          (by linarith : ¬((95:ℚ) / 100 ≤ t.similarity)),
          (by linarith : ¬((90:ℚ) / 100 ≤ t.similarity)),
          (by linarith : ¬((85:ℚ) / 100 ≤ t.similarity)),
          (by linarith : ¬(t.similarity < (80:ℚ) / 100))]
      · rcases lt_or_le t.similarity (90 / 100) with r3 | r3
        · simp [similarityBuckets, List.countP_cons, inBucket, r2, r3,
            (by linarith : ¬((95:ℚ) / 100 ≤ t.similarity)),
            (by linarith : ¬((90:ℚ) / 100 ≤ t.similarity)),
            (by linarith : ¬(t.similarity < (85:ℚ) / 100)),
            (by linarith : ¬(t.similarity < (80:ℚ) / 100))]
        · rcases lt_or_le t.similarity (95 / 100) with r4 | r4
          · simp [similarityBuckets, List.countP_cons, inBucket, r3, r4,
              (by linarith : ¬((95:ℚ) / 100 ≤ t.similarity)),
              (by linarith : ¬(t.similarity < (90:ℚ) / 100)),
              (by linarith : ¬(t.similarity < (85:ℚ) / 100)),
              (by linarith : ¬(t.similarity < (80:ℚ) / 100))]
          · simp [similarityBuckets, List.countP_cons, inBucket, r4, h2,
              (by linarith : ¬(t.similarity < (95:ℚ) / 100)),
              (by linarith : ¬(t.similarity < (90:ℚ) / 100)),
              (by linarith : ¬(t.similarity < (85:ℚ) / 100)),
              (by linarith : ¬(t.similarity < (80:ℚ) / 100))]
  have hb : ∀ t : Trade, t.similarity < 75 / 100 ∨ 1 ≤ t.similarity →
      similarityBuckets.countP (fun b => inBucket b t) = 0 := by
    intro t h
    rcases h with h | h
    · simp [similarityBuckets, List.countP_cons, inBucket,
        (by linarith : ¬((95:ℚ) / 100 ≤ t.similarity)),
        (by linarith : ¬((90:ℚ) / 100 ≤ t.similarity)),
        (by linarith : ¬((85:ℚ) / 100 ≤ t.similarity)),
        (by linarith : ¬((80:ℚ) / 100 ≤ t.similarity)),
        (by linarith : ¬((75:ℚ) / 100 ≤ t.similarity))]
    · simp [similarityBuckets, List.countP_cons, inBucket,
        (by linarith : ¬(t.similarity < (1:ℚ))),
        (by linarith : ¬(t.similarity < (95:ℚ) / 100)),
        (by linarith : ¬(t.similarity < (90:ℚ) / 100)),
        (by linarith : ¬(t.similarity < (85:ℚ) / 100)),
        (by linarith : ¬(t.similarity < (80:ℚ) / 100))]
  have hone : ∀ t ∈ trades, similarityBuckets.countP (fun b => inBucket b t) ≤ 1 := by
    intro t _
    rcases lt_or_le t.similarity (75 / 100) with h | h
    · simp [hb t (Or.inl h)]
    · rcases lt_or_le t.similarity 1 with h2 | h2
      · exact le_of_eq (ha t h h2)
      · simp [hb t (Or.inr h2)]
  refine ⟨ha, hb, ?_⟩
  rw [computeResults]
  by_cases hemp : trades.isEmpty
  · simp [hemp, emptyResult]
  · simp only [hemp, Bool.false_eq_true, if_false]
    rw [bucketStats_count_eq]
    exact sum_countP_le trades similarityBuckets hone

/-- C9 counterexample: a trade with similarity exactly 1 is not below
the lowest bucket floor 0.75 yet falls into no bucket, so the bucket
table of `_compute_results` for that single trade is empty although the
trade is counted in the totals. -/
theorem bucket_partition_counterexample :
    ¬(simOneTrade.similarity < 75 / 100) ∧
    similarityBuckets.countP (fun b => inBucket b simOneTrade) = 0 ∧
    (computeResults [simOneTrade]).bucket_stats = [] ∧
    (computeResults [simOneTrade]).total_signals = 1 := by
  refine ⟨by norm_num [simOneTrade], ?_, ?_, rfl⟩
  · simp [similarityBuckets, List.countP_cons, inBucket, simOneTrade,
      (by norm_num : ¬((1:ℚ) < 1)),
      (by norm_num : ¬((1:ℚ) < 95 / 100)),
      (by norm_num : ¬((1:ℚ) < 90 / 100)),
      (by norm_num : ¬((1:ℚ) < 85 / 100)),
      (by norm_num : ¬((1:ℚ) < 80 / 100))]
  · simp [computeResults, mkBucketStat, similarityBuckets, inBucket, simOneTrade,
      List.filter,
      (by norm_num : ¬((1:ℚ) < 1)),
      (by norm_num : ¬((1:ℚ) < 95 / 100)),
      (by norm_num : ¬((1:ℚ) < 90 / 100)),
      (by norm_num : ¬((1:ℚ) < 85 / 100)),
      (by norm_num : ¬((1:ℚ) < 80 / 100))]

/-- Witness for the amended C9 at a similarity-0.87 trade. -/
theorem bucket_partition_witness :
    similarityBuckets.countP (fun b => inBucket b midTrade) = 1 ∧
    ((computeResults [midTrade]).bucket_stats.map BucketStat.count).sum ≤ 1 := by
  constructor
  · exact (bucket_partition []).1 midTrade (by norm_num [midTrade]) (by norm_num [midTrade])
  · simpa using (bucket_partition [midTrade]).2.2
